import Mathlib

/-!
Verification of the Ghost oEmbed resolver (`lib/OEmbed.js`-style module).

The development shallowly embeds the resolver: JavaScript objects become
association lists of `JVal` values, the WHATWG `new URL` platform parser is
modelled by `parseURL`, network and scraping effects are supplied by a
`World` of oracles, and every operation additionally returns the ordered
trace of external events (`Ev`) it performed, so that "no request is
issued" / "stage never invoked" properties are first-class.

String primitives are implemented by structural recursion over character
lists so that all definitions evaluate inside the kernel.
-/

namespace GhostOembed

/-! ## String primitives -/

/-- Single-character split, the model of `String.splitOn` for a one-char
separator (`"a.b.".splitOn "."` style semantics). -/
def splitOnChar (sep : Char) : List Char → List (List Char)
  | [] => [[]]
  | c :: cs =>
    if c == sep then [] :: splitOnChar sep cs
    else
      match splitOnChar sep cs with
      | [] => [[c]]
      | p :: ps => (c :: p) :: ps

/-- `s.splitOn sep` for a single-character separator. -/
def strSplitOnChar (s : String) (sep : Char) : List String :=
  (splitOnChar sep s.toList).map String.mk

/-- Substring containment test (JavaScript `String.prototype.match` with a
literal pattern). -/
def containsSub : List Char → List Char → Bool
  | [], pat => pat.isEmpty
  | c :: rest, pat => pat.isPrefixOf (c :: rest) || containsSub rest pat

/-- `s.includes(pat)` on strings. -/
def strContains (s pat : String) : Bool := containsSub s.toList pat.toList

/-- `s.startsWith(p)`. -/
def strStartsWith (s p : String) : Bool := p.toList.isPrefixOf s.toList

/-- Drop the first `n` characters of `s`. -/
def strDrop (s : String) (n : Nat) : String := String.mk (s.toList.drop n)

/-- ASCII lowercasing, the part of WHATWG host/scheme normalisation the
resolver can observe. -/
def strToLower (s : String) : String := String.mk (s.toList.map Char.toLower)

/-- Whitespace for `trim`. -/
def isSpaceChar (c : Char) : Bool := c == ' ' || c == '\t' || c == '\n' || c == '\r'

/-- JavaScript `s.trim()`. -/
def strTrim (s : String) : String :=
  String.mk (((s.toList.dropWhile isSpaceChar).reverse.dropWhile isSpaceChar).reverse)

/-- Numeric value of a digit string. -/
def digitsToNat (cs : List Char) : Nat := cs.foldl (fun n c => n * 10 + (c.toNat - 48)) 0

/-! ## JavaScript values and objects -/

/-- JavaScript values occurring in the resolver's data flow.  `undefVal` stands
for JavaScript `undefined` (an absent object property). -/
inductive JVal where
  | str (s : String)
  | num (n : Int)
  | bool (b : Bool)
  | null
  | undefVal
deriving DecidableEq

/-- JavaScript truthiness of a `JVal`. -/
def JVal.truthy : JVal → Bool
  | .str s => s != ""
  | .num n => n != 0
  | .bool b => b
  | .null => false
  | .undefVal => false

/-- A JavaScript object, as an association list (first binding wins on
lookup, matching property access). -/
abbrev JObj := List (String × JVal)

/-- Property access returning `none` for an absent key. -/
def lookupKey : JObj → String → Option JVal
  | [], _ => none
  | (k, v) :: rest, key => if k == key then some v else lookupKey rest key

/-- Property access: `o.k`, with `undefined` for an absent key. -/
def jget (o : JObj) (k : String) : JVal := (lookupKey o k).getD .undefVal

/-- `delete o.k` — removes all bindings of `k`. -/
def eraseKey (o : JObj) (k : String) : JObj := o.filter (fun kv => kv.1 != k)

/-- `o.k = v` (assignment / `Object.assign` of one key). -/
def setKey (o : JObj) (k : String) (v : JVal) : JObj := eraseKey o k ++ [(k, v)]

/-- `_.pick(o, ks)`: keep exactly the listed keys that exist on `o`. -/
def pick (o : JObj) (ks : List String) : JObj :=
  ks.filterMap (fun k => (lookupKey o k).map (fun v => (k, v)))

/-! ## URL model

`new URL` in Node implements the WHATWG URL parser.  The resolver only
reads `protocol`, `hostname` and `host` from parsed URLs, so `parseURL`
models the parser at that granularity: leading/trailing whitespace is
trimmed, the scheme is validated, lowercased and must be followed by
`://`, the authority is cut at the first `/`, `?` or `#`, an IPv6 literal
keeps its brackets in `hostname`, the port must be numeric and a
scheme-default port is dropped from `host`.  Host normalisations beyond
lowercasing (IPv4 canonicalisation, punycode) and scheme-relative forms
without `//` are not modelled. -/

structure URLRec where
  scheme : String
  hostname : String
  port : String
deriving DecidableEq

/-- `url.protocol` — the scheme with a trailing colon. -/
def URLRec.protocol (u : URLRec) : String := u.scheme ++ ":"

/-- `url.host` — hostname plus any explicit non-default port. -/
def URLRec.host (u : URLRec) : String :=
  if u.port == "" then u.hostname else u.hostname ++ ":" ++ u.port

/-- Characters allowed in a URL scheme. -/
def schemeChar (c : Char) : Bool :=
  c.isAlpha || c.isDigit || c == '+' || c == '-' || c == '.'

/-- Split at the first occurrence of `://` into scheme part and remainder. -/
def splitSchemeAux (acc : List Char) : List Char → Option (List Char × List Char)
  | ':' :: '/' :: '/' :: rest => some (acc.reverse, rest)
  | c :: rest => splitSchemeAux (c :: acc) rest
  | [] => none

/-- The authority part: everything up to the first `/`, `?` or `#`. -/
def takeAuthority (s : List Char) : List Char :=
  s.takeWhile (fun c => !(c == '/' || c == '?' || c == '#'))

/-- Split an authority into hostname and port; bracketed IPv6 literals keep
their brackets (so the hostname contains colons), otherwise at most one
colon separates hostname from port. -/
def splitHostPort (a : List Char) : Option (String × String) :=
  if a.take 1 == ['['] then
    match splitOnChar ']' a with
    | [h, rest] =>
      if rest == [] then some (String.mk (h ++ [']']), "")
      else if rest.take 1 == [':'] then some (String.mk (h ++ [']']), String.mk (rest.drop 1))
      else none
    | _ => none
  else
    match splitOnChar ':' a with
    | [h] => some (String.mk h, "")
    | [h, p] => some (String.mk h, String.mk p)
    | _ => none

/-- Model of `new URL(input)`; `none` models the constructor throwing. -/
def parseURL (input : String) : Option URLRec :=
  match splitSchemeAux [] (strTrim input).toList with
  | none => none
  | some (schemePart, rest) =>
    if schemePart == [] then none
    else if !(schemePart.all schemeChar) then none
    else if !((schemePart.take 1).all Char.isAlpha) then none
    else
      let scheme := strToLower (String.mk schemePart)
      match splitHostPort (takeAuthority rest) with
      | none => none
      | some (h, p) =>
        if h == "" then none
        else if !(p.toList.all Char.isDigit) then none
        else
          let port :=
            if (scheme == "http" && p == "80") || (scheme == "https" && p == "443")
            then "" else p
          some ⟨scheme, strToLower h, port⟩

/-! ## SSRF guard (`isIpOrLocalhost`) -/

/-- One octet of the source's `IPV4_REGEX`
`(25[0-5]|2[0-4][0-9]|[01]?[0-9][0-9]?)`: one to three digits, a
three-digit group being further constrained to the value range 0–255. -/
def isIpv4Octet (s : String) : Bool :=
  s.toList.all Char.isDigit && decide (1 ≤ s.length) && decide (s.length ≤ 3)
    && (decide (s.length < 3) || decide (digitsToNat s.toList ≤ 255))

/-- The source's anchored dotted-quad `IPV4_REGEX` test. -/
def ipv4Test (hostname : String) : Bool :=
  match strSplitOnChar hostname '.' with
  | [a, b, c, d] => isIpv4Octet a && isIpv4Octet b && isIpv4Octet c && isIpv4Octet d
  | _ => false

/-- The source's `IPV6_REGEX = /:/` test: the hostname contains a colon. -/
def ipv6Test (hostname : String) : Bool := hostname.toList.any (fun c => c == ':')

/-- The source's `HTTP_REGEX = /^https?:/i` test on `url.protocol`. -/
def httpProtocolTest (protocol : String) : Bool :=
  strStartsWith (strToLower protocol) "http:" || strStartsWith (strToLower protocol) "https:"

/-- `OEmbed.isIpOrLocalhost(url)`.  The configured site URL string is passed
explicitly (`this.config.get('url')`); any parse failure inside the
source's `try` — of the site URL or of the candidate — yields `true`. -/
def isIpOrLocalhost (siteUrlString url : String) : Bool :=
  match parseURL siteUrlString with
  | none => true
  | some siteUrl =>
    match parseURL url with
    | none => true
    | some u =>
      if siteUrl.host == u.host then false
      else if !(httpProtocolTest u.protocol) || u.hostname == "localhost"
          || ipv4Test u.hostname || ipv6Test u.hostname then true
      else false

/-! ## Errors, events, results -/

/-- Exceptions observable at the resolver's boundary: Ghost
`ValidationError` (message, context), Ghost `InternalServerError`, and any
other thrown value (`generic` — e.g. a failed network request or a `URL`
constructor `TypeError`). -/
inductive Err where
  | validation (message : String) (context : String)
  | internal (message : String)
  | generic
deriving DecidableEq

def unknownProviderMsg : String := "No provider found for supplied URL."

def insufficientMetadataMsg : String := "URL contains insufficient metadata."

/-- The error thrown by `OEmbed.unknownProvider(url)`. -/
def unknownProviderErr (url : String) : Err := .validation unknownProviderMsg url

/-- External events performed during a resolution, in order: an outbound
network request actually dispatched (`net`), an invocation of the
known-provider matcher `findUrlWithProvider` (`matcher`), of oEmbed
discovery `fetchOembedData` (`discover`), of the `extract` library call in
`knownProvider` (`extractCall`), and of bookmark extraction
`fetchBookmarkData` (`bookmarkCall`). -/
inductive Ev where
  | net (url : String)
  | matcher (url : String)
  | discover (url : String)
  | extractCall (url : String)
  | bookmarkCall (url : String)
deriving DecidableEq

/-- The `{version, type, url, metadata}` object built by
`fetchBookmarkData`. -/
structure BookmarkPayload where
  version : String
  type : String
  url : String
  metadata : JObj
deriving DecidableEq

/-- A value returned by the resolver: an oEmbed object (from discovery, the
`extract` library, or a custom provider) or a bookmark payload. -/
inductive EmbedResult where
  | oembed (data : JObj)
  | bookmark (p : BookmarkPayload)
deriving DecidableEq

/-- A registered custom provider.  `getOEmbedData` receives the guarded
fetcher in the source; its interaction with it is abstracted into the
returned outcome (`.error e` models a throw, `.ok none` models `null`). -/
structure Provider where
  canSupportRequest : URLRec → Bool
  getOEmbedData : URLRec → Except Err (Option EmbedResult)

/-- Oracles for every effect outside the resolver's own code:
`hasProvider` is the static oEmbed directory consulted by
`findUrlWithProvider`; `extractOembed` is the `oembed-parser` `extract`
call (`none` models a throw); `fetchHtml`/`fetchJson` are the raw
`externalRequest` dependency for the two body types, mapping a requested
URL to the final (post-redirect) URL and body, `none` modelling a failed
request; `oembedLinkOf` is the cheerio query for the discovery `<link>`
href on an HTML body; `scrape` is the metascraper pipeline on
`{html, url}`. -/
structure World where
  hasProvider : String → Bool
  extractOembed : String → Option JObj
  fetchHtml : String → Option (String × String)
  fetchJson : String → Option (String × JObj)
  oembedLinkOf : String → Except Unit (Option String)
  scrape : String → String → Except Unit JObj

/-! ## Guarded fetcher (`this.externalRequest`) -/

/-- The guarded fetcher installed in the constructor: rejects a URL the
SSRF guard judges unsafe before dispatch, dispatches otherwise, and
rejects the response if its final URL is judged unsafe.  `raw` is the
injected `externalRequest` dependency; the `Ev.net` trace records the
dispatches that actually happen. -/
def externalRequest {β : Type} (cfg : String) (raw : String → Option (String × β))
    (url : String) : Except Err (String × β) × List Ev :=
  if isIpOrLocalhost cfg url then
    (.error (unknownProviderErr url), [])
  else
    match raw url with
    | none => (.error .generic, [.net url])
    | some (respUrl, body) =>
      if isIpOrLocalhost cfg respUrl then
        (.error (unknownProviderErr url), [.net url])
      else
        (.ok (respUrl, body), [.net url])

/-- `fetchPage`/`fetchPageHtml`: the guarded fetch of a page body.  Charset
detection and decoding never fail the request in the source (failures
degrade to the raw body), so the body is modelled as the decoded text. -/
def fetchPageHtml (W : World) (cfg : String) (url : String) :
    Except Err (String × String) × List Ev :=
  externalRequest cfg W.fetchHtml url

/-- `fetchPageJson`: the guarded fetch of a JSON body. -/
def fetchPageJson (W : World) (cfg : String) (url : String) :
    Except Err (String × JObj) × List Ev :=
  externalRequest cfg W.fetchJson url

/-! ## Known-provider matcher (`findUrlWithProvider`) -/

/-- The anchored replace `url.replace(/^\/\/|^https?:\/\/(?:www\.)?/, '')`:
strips a protocol-relative `//`, or an `http(s)://` scheme together with an
immediately following `www.`. -/
def stripSchemeWww (url : String) : String :=
  if strStartsWith url "//" then strDrop url 2
  else if strStartsWith url "http://www." then strDrop url 11
  else if strStartsWith url "http://" then strDrop url 7
  else if strStartsWith url "https://www." then strDrop url 12
  else if strStartsWith url "https://" then strDrop url 8
  else url

/-- Modelled from the spec: the claimed normalisation "first strips any
existing scheme and www prefix to obtain a base host" — any `scheme://`
is removed, then a leading `www.`.  Used only to compare the claimed
matcher behaviour with the code's `stripSchemeWww`. -/
def stripAnySchemeWwwSpec (url : String) : String :=
  let noScheme :=
    match splitSchemeAux [] url.toList with
    | some (_, rest) => String.mk rest
    | none => url
  if strStartsWith noScheme "www." then strDrop noScheme 4 else noScheme

/-- The four scheme/www variants tried against the provider directory. -/
def testUrls (baseUrl : String) : List String :=
  ["http://" ++ baseUrl, "https://" ++ baseUrl,
   "http://www." ++ baseUrl, "https://www." ++ baseUrl]

/-- The `for (let testUrl of testUrls)` loop: first variant the directory
accepts wins, otherwise the original url with `provider = false`. -/
def findLoop (hp : String → Bool) : List String → String → String × Bool
  | [], url => (url, false)
  | t :: ts, url => if hp t then (t, true) else findLoop hp ts url

/-- `findUrlWithProvider(url)`, with the `hasProvider` directory passed
explicitly. -/
def findUrlWithProvider (hp : String → Bool) (url : String) : String × Bool :=
  findLoop hp (testUrls (stripSchemeWww url)) url

/-! ## Known provider extraction, bookmark extraction, discovery -/

/-- `knownProvider(url)`: delegate to the `extract` library, wrapping any
throw into an `InternalServerError`. -/
def knownProvider (W : World) (url : String) : Except Err EmbedResult × List Ev :=
  match W.extractOembed url with
  | some d => (.ok (.oembed d), [.extractCall url])
  | none => (.error (.internal "extract failed"), [.extractCall url])

/-- The metadata object built by `fetchBookmarkData` from the scraper
response: `thumbnail` and `icon` are assigned from `image` and `logo`,
then the `image` and `logo` keys are deleted. -/
def bookmarkMetadata (scraperResponse : JObj) : JObj :=
  eraseKey (eraseKey
    (setKey (setKey scraperResponse "thumbnail" (jget scraperResponse "image"))
      "icon" (jget scraperResponse "logo"))
    "image") "logo"

/-- `fetchBookmarkData(url, html)`: run the scraper (a throw is logged and
becomes `unknownProvider`), rename `image → thumbnail` and `logo → icon`,
require a truthy `title`, and wrap into the bookmark payload. -/
def fetchBookmarkData (W : World) (url html : String) :
    Except Err EmbedResult × List Ev :=
  match W.scrape html url with
  | .error _ => (.error (unknownProviderErr url), [.bookmarkCall url])
  | .ok scraperResponse =>
    let metadata := bookmarkMetadata scraperResponse
    if !(jget metadata "title").truthy then
      (.error (.validation insufficientMetadataMsg url), [.bookmarkCall url])
    else
      (.ok (.bookmark ⟨"1.0", "bookmark", url, metadata⟩), [.bookmarkCall url])

/-- The whitelist of oEmbed fields retained from a discovered response. -/
def knownFields : List String :=
  ["type", "version", "html", "url", "title", "width", "height",
   "author_name", "author_url", "provider_name", "provider_url",
   "thumbnail_url", "thumbnail_width", "thumbnail_height"]

/-- The `oembedUrl.match(/wp-json\/oembed/)` test. -/
def matchesWpJson (s : String) : Bool := strContains s "wp-json/oembed"

/-- `fetchOembedData(url, html, cardType)`: find the discovery `<link>`
(a cheerio throw becomes `unknownProvider`; an absent or empty href falls
through to `undefined`, modelled `.ok none`), skip WordPress endpoints
when no card type was requested, fetch the endpoint as JSON through the
guarded fetcher, validate `type`/`version`, whitelist fields, and enforce
per-type required fields; any check failing yields `.ok none`. -/
def fetchOembedData (W : World) (cfg : String) (url html : String)
    (cardType : Option String) : Except Err (Option JObj) × List Ev :=
  match W.oembedLinkOf html with
  | .error _ => (.error (unknownProviderErr url), [])
  | .ok olink =>
    let oembedUrl := olink.getD ""
    if oembedUrl == "" then (.ok none, [])
    else if cardType.isNone && matchesWpJson oembedUrl then (.ok none, [])
    else
      match fetchPageJson W cfg oembedUrl with
      | (.error e, evs) => (.error e, evs)
      | (.ok (_, body), evs) =>
        let hasRequiredFields := (jget body "type").truthy && (jget body "version").truthy
        let hasValidType :=
          [JVal.str "photo", JVal.str "video", JVal.str "link", JVal.str "rich"].contains
            (jget body "type")
        if hasRequiredFields && hasValidType then
          let oembed := pick body knownFields
          if jget oembed "type" == JVal.str "photo" && !(jget oembed "url").truthy then
            (.ok none, evs)
          else if (jget oembed "type" == JVal.str "video"
                    || jget oembed "type" == JVal.str "rich")
              && (!(jget oembed "html").truthy || !(jget oembed "width").truthy
                    || !(jget oembed "height").truthy) then
            (.ok none, evs)
          else
            (.ok (some oembed), evs)
        else (.ok none, evs)

/-! ## Resolution orchestrator (`fetchOembedDataFromUrl`) -/

/-- The custom-provider loop: first provider whose `canSupportRequest`
holds and whose `getOEmbedData` is non-null wins; a null result or a
declined capability moves to the next provider; a throw aborts. -/
def providerLoop (uo : URLRec) : List Provider → Except Err (Option EmbedResult)
  | [] => .ok none
  | p :: ps =>
    if p.canSupportRequest uo then
      match p.getOEmbedData uo with
      | .error e => .error e
      | .ok (some r) => .ok (some r)
      | .ok none => providerLoop uo ps
    else providerLoop uo ps

/-- The catch-all at the end of `fetchOembedDataFromUrl`: a Ghost
`ValidationError` is rethrown verbatim; anything else is logged and
replaced by `unknownProvider(url)`. -/
def catchNorm (url : String) (e : Err) : Err :=
  match e with
  | .validation m c => .validation m c
  | _ => unknownProviderErr url

/-- The body of the source's `try` after `new URL(url)` succeeded and the
url was trimmed: custom providers, then (unless a bookmark was requested)
the known-provider matcher, then the guarded page fetch, then either
direct bookmark extraction (bookmark request), the redirect re-match,
oEmbed discovery, the bookmark fallback when no type was requested, and
finally `unknownProvider`. -/
def resolveAfterParse (W : World) (cfg : String) (providers : List Provider)
    (uo : URLRec) (url : String) (ty : Option String) :
    Except Err EmbedResult × List Ev :=
  match providerLoop uo providers with
  | .error e => (.error e, [])
  | .ok (some r) => (.ok r, [])
  | .ok none =>
    let matcherEvs : List Ev := if ty == some "bookmark" then [] else [.matcher url]
    let matched : Option String :=
      if ty == some "bookmark" then none
      else
        let fr := findUrlWithProvider W.hasProvider url
        if fr.2 then some fr.1 else none
    match matched with
    | some providerUrl =>
      let kr := knownProvider W providerUrl
      (kr.1, matcherEvs ++ kr.2)
    | none =>
      match fetchPageHtml W cfg url with
      | (.error e, fevs) => (.error e, matcherEvs ++ fevs)
      | (.ok (pageUrl, body), fevs) =>
        let evs0 := matcherEvs ++ fevs
        if ty == some "bookmark" then
          let br := fetchBookmarkData W url body
          (br.1, evs0 ++ br.2)
        else
          let evs1 := evs0 ++ (if pageUrl != url then [Ev.matcher pageUrl] else [])
          let redirectMatch : Option String :=
            if pageUrl != url then
              let fr := findUrlWithProvider W.hasProvider pageUrl
              if fr.2 then some fr.1 else none
            else none
          match redirectMatch with
          | some providerUrl =>
            let kr := knownProvider W providerUrl
            (kr.1, evs1 ++ kr.2)
          | none =>
            match fetchOembedData W cfg url body none with
            | (.error e, oevs) => (.error e, evs1 ++ [Ev.discover url] ++ oevs)
            | (.ok odata, oevs) =>
              let evs2 := evs1 ++ [Ev.discover url] ++ oevs
              match odata with
              | some o => (.ok (.oembed o), evs2)
              | none =>
                if ty.isNone then
                  let br := fetchBookmarkData W url body
                  (br.1, evs2 ++ br.2)
                else
                  (.error (unknownProviderErr url), evs2)

/-- `fetchOembedDataFromUrl(url, type)`: parse the url (a `TypeError` goes
to the catch-all, which sees the untrimmed url), trim it, run the
resolution body, and normalise any non-ValidationError into
`unknownProvider` on the trimmed url. -/
def fetchOembedDataFromUrl (W : World) (cfg : String) (providers : List Provider)
    (url : String) (ty : Option String) : Except Err EmbedResult × List Ev :=
  match parseURL url with
  | none => (.error (unknownProviderErr url), [])
  | some uo =>
    let url' := strTrim url
    match resolveAfterParse W cfg providers uo url' ty with
    | (.ok r, evs) => (.ok r, evs)
    | (.error e, evs) => (.error (catchNorm url' e), evs)

/-- A concrete world used to exercise the discovery path: the page at
`http://ok.example/page` advertises an oEmbed endpoint returning a `photo`
response with no `url` field, and scraping the page yields only a title. -/
def demoPhotoWorld : World where
  hasProvider := fun _ => false
  extractOembed := fun _ => none
  fetchHtml := fun u =>
    if u == "http://ok.example/page" then some ("http://ok.example/page", "<html>o</html>")
    else none
  fetchJson := fun u =>
    if u == "http://pub.example/oembed.json" then
      some ("http://pub.example/oembed.json", [("type", .str "photo"), ("version", .str "1.0")])
    else none
  oembedLinkOf := fun h =>
    if h == "<html>o</html>" then .ok (some "http://pub.example/oembed.json") else .ok none
  scrape := fun _ _ => .ok [("title", .str "T")]

/-- A concrete world in which the discovered oEmbed endpoint is a private
IPv4 literal, so the guard rejects the intermediate fetch. -/
def ssrfOembedWorld : World where
  hasProvider := fun _ => false
  extractOembed := fun _ => none
  fetchHtml := fun u =>
    if u == "http://ok.example/page" then some ("http://ok.example/page", "<html>s</html>")
    else none
  fetchJson := fun _ => none
  oembedLinkOf := fun h =>
    if h == "<html>s</html>" then .ok (some "http://10.0.0.1/oembed") else .ok none
  scrape := fun _ _ => .ok [("title", .str "T")]

/-! ## Helper lemmas -/

theorem providerLoop_declines (uo : URLRec) (ps : List Provider)
    (h : ∀ q ∈ ps, q.canSupportRequest uo = false ∨ q.getOEmbedData uo = .ok none) :
    providerLoop uo ps = .ok none := by
  induction ps with
  | nil => rfl
  | cons p ps ih =>
    have hrest : ∀ q ∈ ps, q.canSupportRequest uo = false ∨ q.getOEmbedData uo = .ok none :=
      fun q hq => h q (List.mem_cons_of_mem _ hq)
    rcases h p (List.mem_cons_self _ _) with hc | hr
    · simp [providerLoop, hc, ih hrest]
    · by_cases hcan : p.canSupportRequest uo
      · simp [providerLoop, hcan, hr, ih hrest]
      · simp [providerLoop, hcan, ih hrest]

theorem providerLoop_first_accepting (uo : URLRec) (pre rest : List Provider)
    (p : Provider) (r : EmbedResult)
    (hpre : ∀ q ∈ pre, q.canSupportRequest uo = false ∨ q.getOEmbedData uo = .ok none)
    (hcan : p.canSupportRequest uo = true)
    (hres : p.getOEmbedData uo = .ok (some r)) :
    providerLoop uo (pre ++ p :: rest) = .ok (some r) := by
  induction pre with
  | nil => simp [providerLoop, hcan, hres]
  | cons q pre ih =>
    have hrest : ∀ q₁ ∈ pre, q₁.canSupportRequest uo = false ∨ q₁.getOEmbedData uo = .ok none :=
      fun q₁ hq => hpre q₁ (List.mem_cons_of_mem _ hq)
    rcases hpre q (List.mem_cons_self _ _) with hc | hr
    · simp [providerLoop, hc, ih hrest]
    · by_cases hq : q.canSupportRequest uo
      · simp [providerLoop, hq, hr, ih hrest]
      · simp [providerLoop, hq, ih hrest]

theorem externalRequest_trace {β : Type} (cfg : String)
    (raw : String → Option (String × β)) (url : String) :
    (externalRequest cfg raw url).2 = [] ∨ (externalRequest cfg raw url).2 = [.net url] := by
  unfold externalRequest
  by_cases h : isIpOrLocalhost cfg url
  · simp [h]
  · cases hraw : raw url with
    | none => simp [h, hraw]
    | some rb =>
      by_cases h2 : isIpOrLocalhost cfg rb.1
      · simp [h, hraw, h2]
      · simp [h, hraw, h2]

theorem fetchBookmarkData_trace (W : World) (url html : String) :
    (fetchBookmarkData W url html).2 = [.bookmarkCall url] := by
  unfold fetchBookmarkData
  cases W.scrape html url with
  | error u => rfl
  | ok s =>
    dsimp only
    by_cases h : (jget (bookmarkMetadata s) "title").truthy <;> simp [h]

theorem fetchBookmarkData_error_validation (W : World) (url html : String)
    (e : Err) (evs : List Ev) (h : fetchBookmarkData W url html = (.error e, evs)) :
    ∃ m, e = .validation m url := by
  unfold fetchBookmarkData at h
  cases hs : W.scrape html url with
  | error u =>
    rw [hs] at h
    dsimp only at h
    injection h with h1 h2
    injection h1 with h3
    exact ⟨unknownProviderMsg, h3.symm⟩
  | ok s =>
    rw [hs] at h
    dsimp only at h
    cases ht : (jget (bookmarkMetadata s) "title").truthy with
    | true =>
      rw [ht] at h
      simp at h
    | false =>
      rw [ht] at h
      have h1 : (Except.error (Err.validation insufficientMetadataMsg url) : Except Err EmbedResult)
          = .error e := by
        simpa using congrArg Prod.fst h
      injection h1 with h3
      exact ⟨insufficientMetadataMsg, h3.symm⟩

theorem catchNorm_validation (u m c : String) :
    catchNorm u (.validation m c) = .validation m c := rfl

/-- Unfolding of the orchestrator once the URL parses: the trimmed url is
resolved and errors pass through the catch-all. -/
theorem fetchOembedDataFromUrl_eq (W : World) (cfg : String) (providers : List Provider)
    (url : String) (uo : URLRec) (ty : Option String)
    (hparse : parseURL url = some uo) :
    fetchOembedDataFromUrl W cfg providers url ty =
      match resolveAfterParse W cfg providers uo (strTrim url) ty with
      | (.ok r, evs) => (.ok r, evs)
      | (.error e, evs) => (.error (catchNorm (strTrim url) e), evs) := by
  unfold fetchOembedDataFromUrl
  rw [hparse]

/-- The bookmark-request path: once every custom provider declines, the
resolution is exactly the guarded page fetch followed by bookmark
extraction on the same (requested) url. -/
theorem resolveAfterParse_bookmark (W : World) (cfg : String) (providers : List Provider)
    (uo : URLRec) (url : String)
    (hprov : ∀ q ∈ providers, q.canSupportRequest uo = false ∨ q.getOEmbedData uo = .ok none) :
    resolveAfterParse W cfg providers uo url (some "bookmark") =
      match fetchPageHtml W cfg url with
      | (.error e, fevs) => (.error e, fevs)
      | (.ok pb, fevs) =>
        ((fetchBookmarkData W url pb.2).1, fevs ++ (fetchBookmarkData W url pb.2).2) := by
  unfold resolveAfterParse
  rw [providerLoop_declines uo providers hprov]
  cases hf : fetchPageHtml W cfg url with
  | mk res fevs =>
    cases res with
    | error e => simp [hf]
    | ok pb => simp [hf]

/-- Normalising the result of `fetchBookmarkData` through the catch-all is
the identity: every error it raises is a `ValidationError`. -/
theorem catchNorm_fetchBookmarkData (W : World) (x url html : String) :
    (match fetchBookmarkData W url html with
     | (.ok r, evs) => ((Except.ok r : Except Err EmbedResult), evs)
     | (.error e, evs) => (.error (catchNorm x e), evs)) = fetchBookmarkData W url html := by
  cases hb : fetchBookmarkData W url html with
  | mk res evs =>
    cases res with
    | ok r => rfl
    | error e =>
      obtain ⟨m, rfl⟩ := fetchBookmarkData_error_validation W url html e evs hb
      rfl

theorem lookupKey_append (o₁ o₂ : JObj) (k : String) :
    lookupKey (o₁ ++ o₂) k =
      match lookupKey o₁ k with
      | some v => some v
      | none => lookupKey o₂ k := by
  induction o₁ with
  | nil => rfl
  | cons kv rest ih =>
    obtain ⟨k₁, v₁⟩ := kv
    rw [List.cons_append]
    simp only [lookupKey]
    by_cases h : (k₁ == k) = true
    · rw [if_pos h, if_pos h]
    · rw [if_neg h, if_neg h]
      exact ih

theorem lookupKey_eraseKey_self (o : JObj) (k : String) :
    lookupKey (eraseKey o k) k = none := by
  induction o with
  | nil => rfl
  | cons kv rest ih =>
    obtain ⟨k₁, v₁⟩ := kv
    simp only [eraseKey, List.filter_cons] at *
    by_cases h : k₁ = k
    · rw [if_neg (by simp [h])]
      exact ih
    · rw [if_pos (by simpa using h)]
      simp only [lookupKey]
      rw [if_neg (by simpa using h)]
      exact ih

theorem lookupKey_eraseKey_ne (o : JObj) (k₀ k : String) (h : k ≠ k₀) :
    lookupKey (eraseKey o k₀) k = lookupKey o k := by
  induction o with
  | nil => rfl
  | cons kv rest ih =>
    obtain ⟨k₁, v₁⟩ := kv
    simp only [eraseKey, List.filter_cons] at *
    by_cases h₁ : k₁ = k₀
    · rw [if_neg (by simp [h₁])]
      rw [ih]
      simp only [lookupKey]
      rw [if_neg (by simp [h₁]; exact fun hc => h (hc ▸ h₁ ▸ rfl))]
    · rw [if_pos (by simpa using h₁)]
      simp only [lookupKey]
      by_cases h₂ : (k₁ == k) = true
      · rw [if_pos h₂, if_pos h₂]
      · rw [if_neg h₂, if_neg h₂]
        exact ih

theorem lookupKey_setKey_self (o : JObj) (k : String) (v : JVal) :
    lookupKey (setKey o k v) k = some v := by
  unfold setKey
  rw [lookupKey_append, lookupKey_eraseKey_self]
  simp [lookupKey]

theorem lookupKey_setKey_ne (o : JObj) (k₀ k : String) (v : JVal) (h : k ≠ k₀) :
    lookupKey (setKey o k₀ v) k = lookupKey o k := by
  unfold setKey
  rw [lookupKey_append, lookupKey_eraseKey_ne o k₀ k h]
  cases hv : lookupKey o k with
  | some w => rfl
  | none => simp [lookupKey, show (k₀ == k) = false by simpa using fun hc => h hc.symm]

theorem lookupKey_pick (o : JObj) (ks : List String) (k : String) :
    lookupKey (pick o ks) k = if k ∈ ks then lookupKey o k else none := by
  induction ks with
  | nil => simp [pick, lookupKey]
  | cons k₁ rest ih =>
    cases hv : lookupKey o k₁ with
    | none =>
      have hp : pick o (k₁ :: rest) = pick o rest := by simp [pick, hv]
      rw [hp, ih]
      by_cases h : k = k₁
      · subst h
        simp [hv]
      · simp [h]
    | some v =>
      have hp : pick o (k₁ :: rest) = (k₁, v) :: pick o rest := by simp [pick, hv]
      rw [hp]
      by_cases h : k = k₁
      · subst h
        simp [lookupKey, hv]
      · simp only [lookupKey, show (k₁ == k) = false by simpa using fun hc => h hc.symm]
        rw [ih]
        simp [h]

/-- The four field equations of `bookmarkMetadata`: `thumbnail` and `icon`
are the scraper's `image` and `logo`, and the `image`/`logo` keys are
gone. -/
theorem bookmarkMetadata_fields (s : JObj) :
    jget (bookmarkMetadata s) "thumbnail" = jget s "image" ∧
    jget (bookmarkMetadata s) "icon" = jget s "logo" ∧
    lookupKey (bookmarkMetadata s) "image" = none ∧
    lookupKey (bookmarkMetadata s) "logo" = none := by
  unfold bookmarkMetadata
  refine ⟨?_, ?_, ?_, ?_⟩
  · unfold jget
    rw [lookupKey_eraseKey_ne _ _ _ (by decide), lookupKey_eraseKey_ne _ _ _ (by decide),
      lookupKey_setKey_ne _ _ _ _ (by decide), lookupKey_setKey_self]
    simp
  · unfold jget
    rw [lookupKey_eraseKey_ne _ _ _ (by decide), lookupKey_eraseKey_ne _ _ _ (by decide),
      lookupKey_setKey_self]
    simp
  · rw [lookupKey_eraseKey_ne _ _ _ (by decide), lookupKey_eraseKey_self]
  · rw [lookupKey_eraseKey_self]

/-- The discovery path: with no requested type, declining providers, a
missing known-provider match, and a guarded fetch that does not redirect,
the resolution is oEmbed discovery on the fetched body, falling back to
bookmark extraction when discovery yields no payload. -/
theorem resolveAfterParse_discovery (W : World) (cfg : String) (providers : List Provider)
    (uo : URLRec) (url html : String)
    (hprov : ∀ q ∈ providers, q.canSupportRequest uo = false ∨ q.getOEmbedData uo = .ok none)
    (hmiss : (findUrlWithProvider W.hasProvider url).2 = false)
    (hguard : isIpOrLocalhost cfg url = false)
    (hfetch : W.fetchHtml url = some (url, html)) :
    resolveAfterParse W cfg providers uo url none =
      match fetchOembedData W cfg url html none with
      | (.error e, oevs) => (.error e, [.matcher url, .net url, .discover url] ++ oevs)
      | (.ok (some o), oevs) =>
        (.ok (.oembed o), [.matcher url, .net url, .discover url] ++ oevs)
      | (.ok none, oevs) =>
        ((fetchBookmarkData W url html).1,
          [.matcher url, .net url, .discover url] ++ oevs ++ (fetchBookmarkData W url html).2) := by
  unfold resolveAfterParse
  rw [providerLoop_declines uo providers hprov]
  have hpage : fetchPageHtml W cfg url = (.ok (url, html), [.net url]) := by
    simp [fetchPageHtml, externalRequest, hguard, hfetch]
  simp only [show ((none : Option String) == some "bookmark") = false from rfl,
    Bool.false_eq_true, if_false, hmiss, hpage, bne_self_eq_false, Option.isNone_none]
  cases ho : fetchOembedData W cfg url html none with
  | mk ores oevs =>
    cases ores with
    | error e => simp [ho]
    | ok odata =>
      cases odata with
      | some o => simp [ho]
      | none => simp [ho]

/-! ## Claims -/

/-- **C1.** Every call to the guarded fetcher with a URL the SSRF guard
judges unsafe issues no outbound request (empty `net` trace) and collapses
to the unknown-provider outcome; a fetch whose final (post-redirect) URL
is judged unsafe discards the response and likewise collapses to the
unknown-provider outcome; and a successful result certifies that the
guard passed both the requested and the final URL. -/
theorem externalRequest_ssrf_guarded {β : Type} (cfg url : String)
    (raw : String → Option (String × β)) :
    (isIpOrLocalhost cfg url = true →
      externalRequest cfg raw url = (.error (unknownProviderErr url), [])) ∧
    (∀ respUrl body, isIpOrLocalhost cfg url = false →
      raw url = some (respUrl, body) → isIpOrLocalhost cfg respUrl = true →
      externalRequest cfg raw url = (.error (unknownProviderErr url), [.net url])) ∧
    (∀ res evs, externalRequest cfg raw url = (.ok res, evs) →
      isIpOrLocalhost cfg url = false ∧ isIpOrLocalhost cfg res.1 = false) := by
  refine ⟨?_, ?_, ?_⟩
  · intro h; simp [externalRequest, h]
  · intro respUrl body h hraw hresp; simp [externalRequest, h, hraw, hresp]
  · intro res evs h
    unfold externalRequest at h
    by_cases h1 : isIpOrLocalhost cfg url
    · simp [h1] at h
    · refine ⟨by simpa using h1, ?_⟩
      cases hraw : raw url with
      | none => rw [if_neg (by simpa using h1), hraw] at h; simp at h
      | some rb =>
        rw [if_neg (by simpa using h1), hraw] at h
        by_cases h2 : isIpOrLocalhost cfg rb.1
        · simp [h2] at h
        · simp [h2] at h
          rw [← h.1]
          simpa using h2

/-- Witness for C1: the guard rejects `http://localhost/a` against a
normal site configuration, so the guarded fetcher returns the
unknown-provider error without dispatching. -/
theorem externalRequest_ssrf_guarded_witness :
    externalRequest "https://site.example" (fun _ => (none : Option (String × String)))
      "http://localhost/a" = (.error (unknownProviderErr "http://localhost/a"), []) :=
  (externalRequest_ssrf_guarded "https://site.example" "http://localhost/a"
    (fun _ => none)).1 rfl

/-- **C2.** With a parseable configured site URL, `isIpOrLocalhost` is true
exactly when the candidate fails to parse, or its scheme is not http(s),
its hostname is `localhost`, matches the dotted-quad IPv4 pattern, or
contains a colon — except that it is false whenever the candidate's host
equals the site host, this exception taking precedence over all the unsafe
rules. -/
theorem isIpOrLocalhost_characterisation (siteStr url : String) (siteU : URLRec)
    (hsite : parseURL siteStr = some siteU) :
    (parseURL url = none → isIpOrLocalhost siteStr url = true) ∧
    (∀ u, parseURL url = some u →
      (isIpOrLocalhost siteStr url = true ↔
        (u.host ≠ siteU.host ∧
          (httpProtocolTest u.protocol = false ∨ u.hostname = "localhost" ∨
            ipv4Test u.hostname = true ∨ ipv6Test u.hostname = true)))) := by
  constructor
  · intro h; simp [isIpOrLocalhost, hsite, h]
  · intro u hu
    simp only [isIpOrLocalhost, hsite, hu]
    by_cases hh : siteU.host = u.host
    · simp [hh]
    · rw [if_neg (by simpa using hh)]
      constructor
      · intro ht
        refine ⟨fun hc => hh hc.symm, ?_⟩
        by_cases hcond : (!httpProtocolTest u.protocol || u.hostname == "localhost"
            || ipv4Test u.hostname || ipv6Test u.hostname) = true
        · have := hcond
          simp only [Bool.or_eq_true, Bool.not_eq_true', beq_iff_eq] at this
          tauto
        · rw [if_neg hcond] at ht; exact absurd ht (by simp)
      · rintro ⟨-, hc⟩
        have hcond : (!httpProtocolTest u.protocol || u.hostname == "localhost"
            || ipv4Test u.hostname || ipv6Test u.hostname) = true := by
          simp only [Bool.or_eq_true, Bool.not_eq_true', beq_iff_eq]
          tauto
        rw [if_pos hcond]

/-- Witness for C2: against site `https://site.example`, the guard holds
for the IPv6 literal `http://[::1]/x` (parse succeeds, hostname contains a
colon, host differs from the site host). -/
theorem isIpOrLocalhost_characterisation_witness :
    isIpOrLocalhost "https://site.example" "http://[::1]/x" = true :=
  ((isIpOrLocalhost_characterisation "https://site.example" "http://[::1]/x"
      ⟨"https", "site.example", ""⟩ (by decide)).2
    ⟨"http", "[::1]", ""⟩ (by decide)).mpr
    ⟨by decide, Or.inr (Or.inr (Or.inr (by decide)))⟩

/-- **C9 (counterexample).** The claim says the matcher "first strips any
existing scheme and www prefix to obtain a base host".  For
`ftp://example.com` the base host under that description is `example.com`,
so the variant `http://example.com` would be tested and — with a directory
accepting exactly that URL — found.  The code's anchored replace leaves
non-http(s) schemes intact, so no variant matches and the original URL is
returned with the flag false. -/
theorem findUrlWithProvider_spec_counterexample :
    findUrlWithProvider (fun s => s == "http://example.com") "ftp://example.com" =
      ("ftp://example.com", false) ∧
    "http://" ++ stripAnySchemeWwwSpec "ftp://example.com" = "http://example.com" ∧
    (fun s => s == "http://example.com") "http://example.com" = true :=
  ⟨by rfl, by rfl, by rfl⟩

/-- **C9 (amended).** `findUrlWithProvider` strips a protocol-relative
`//`, or an `http`/`https` scheme together with an immediately following
`www.` (other schemes, and a bare `www.` without such a scheme, are left
intact), then tests the four variants `http://`, `https://`,
`http://www.`, `https://www.` of the stripped base, in that order, against
the directory; the first matching variant is returned with the flag true,
otherwise the original URL with the flag false. -/
theorem findUrlWithProvider_first_variant (hp : String → Bool) (url : String) :
    findUrlWithProvider hp url =
      match (testUrls (stripSchemeWww url)).find? hp with
      | some v => (v, true)
      | none => (url, false) := by
  unfold findUrlWithProvider
  generalize testUrls (stripSchemeWww url) = ts
  induction ts with
  | nil => rfl
  | cons t ts ih =>
    by_cases h : hp t
    · simp [findLoop, h, List.find?_cons_of_pos]
    · rw [List.find?_cons_of_neg _ (by simpa using h)]
      simpa [findLoop, h] using ih

/-- **C10.** If the configured site URL does not parse, the guard judges
every URL unsafe, so the guarded fetcher never dispatches and always
returns the unknown-provider outcome, and a resolution that reaches the
page fetch (here: a bookmark request past declining providers) collapses
to the unknown-provider outcome with no event at all. -/
theorem misconfigured_site_fails_closed (cfg : String) (hcfg : parseURL cfg = none) :
    (∀ url, isIpOrLocalhost cfg url = true) ∧
    (∀ (β : Type) (raw : String → Option (String × β)) (url : String),
      externalRequest cfg raw url = (.error (unknownProviderErr url), [])) ∧
    (∀ (W : World) (providers : List Provider) (url : String) (uo : URLRec),
      parseURL url = some uo →
      (∀ q ∈ providers, q.canSupportRequest uo = false ∨ q.getOEmbedData uo = .ok none) →
      fetchOembedDataFromUrl W cfg providers url (some "bookmark") =
        (.error (unknownProviderErr (strTrim url)), [])) := by
  have hall : ∀ url, isIpOrLocalhost cfg url = true := by
    intro url; simp [isIpOrLocalhost, hcfg]
  refine ⟨hall, ?_, ?_⟩
  · intro β raw url
    simp [externalRequest, hall url]
  · intro W providers url uo hparse hprov
    rw [fetchOembedDataFromUrl_eq W cfg providers url uo (some "bookmark") hparse,
      resolveAfterParse_bookmark W cfg providers uo (strTrim url) hprov]
    have hfetch : fetchPageHtml W cfg (strTrim url) =
        (.error (unknownProviderErr (strTrim url)), []) := by
      simp [fetchPageHtml, externalRequest, hall]
    rw [hfetch]
    rfl

/-- Witness for C10: with the unparseable site configuration `"not a url"`
the guard rejects even a plain public URL. -/
theorem misconfigured_site_fails_closed_witness :
    isIpOrLocalhost "not a url" "http://ok.example/a" = true :=
  (misconfigured_site_fails_closed "not a url" (by decide)).1 "http://ok.example/a"

/-- **C3.** If the URL parses and the first provider (in registration
order) that accepts it returns a fixed non-null result — every earlier
provider either declines the capability check or returns null — then the
resolution returns exactly that result with an empty event trace: no
matcher, fetch, discovery or bookmark stage runs. -/
theorem custom_provider_round_trip (W : World) (cfg : String)
    (pre rest : List Provider) (p : Provider) (url : String) (uo : URLRec)
    (r : EmbedResult) (ty : Option String)
    (hparse : parseURL url = some uo)
    (hpre : ∀ q ∈ pre, q.canSupportRequest uo = false ∨ q.getOEmbedData uo = .ok none)
    (hcan : p.canSupportRequest uo = true)
    (hres : p.getOEmbedData uo = .ok (some r)) :
    fetchOembedDataFromUrl W cfg (pre ++ p :: rest) url ty = (.ok r, []) := by
  rw [fetchOembedDataFromUrl_eq W cfg (pre ++ p :: rest) url uo ty hparse]
  unfold resolveAfterParse
  rw [providerLoop_first_accepting uo pre rest p r hpre hcan hres]

/-- Witness for C3: a single always-accepting provider returning a fixed
rich payload makes the resolution return exactly that payload with no
event. -/
theorem custom_provider_round_trip_witness :
    fetchOembedDataFromUrl
      ⟨fun _ => false, fun _ => none, fun _ => none, fun _ => none,
        fun _ => .ok none, fun _ _ => .error ()⟩
      "https://site.example"
      [⟨fun _ => true, fun _ => .ok (some (.oembed [("type", .str "rich")]))⟩]
      "http://ok.example/a" none =
      (.ok (.oembed [("type", .str "rich")]), []) :=
  custom_provider_round_trip _ "https://site.example" [] []
    ⟨fun _ => true, fun _ => .ok (some (.oembed [("type", .str "rich")]))⟩
    "http://ok.example/a" ⟨"http", "ok.example", ""⟩
    (.oembed [("type", .str "rich")]) none (by decide)
    (fun q hq => absurd hq (List.not_mem_nil q)) rfl rfl

/-- **C4.** For a `bookmark`-type request in which every custom provider
declines, the resolution is exactly the guarded page fetch followed by
bookmark extraction on the fetched body — applied to the (trimmed)
requested URL, not the post-redirect URL — and the event trace contains no
known-provider-matcher and no oEmbed-discovery invocation. -/
theorem bookmark_request_skips_matcher_and_discovery (W : World) (cfg : String)
    (providers : List Provider) (url : String) (uo : URLRec)
    (hparse : parseURL url = some uo)
    (hprov : ∀ q ∈ providers, q.canSupportRequest uo = false ∨ q.getOEmbedData uo = .ok none) :
    (fetchOembedDataFromUrl W cfg providers url (some "bookmark") =
      match fetchPageHtml W cfg (strTrim url) with
      | (.error e, fevs) => (.error (catchNorm (strTrim url) e), fevs)
      | (.ok pb, fevs) =>
        ((fetchBookmarkData W (strTrim url) pb.2).1,
          fevs ++ (fetchBookmarkData W (strTrim url) pb.2).2)) ∧
    (∀ e ∈ (fetchOembedDataFromUrl W cfg providers url (some "bookmark")).2,
      (∀ s, e ≠ .matcher s) ∧ (∀ s, e ≠ .discover s)) := by
  have hmain : fetchOembedDataFromUrl W cfg providers url (some "bookmark") =
      match fetchPageHtml W cfg (strTrim url) with
      | (.error e, fevs) => (.error (catchNorm (strTrim url) e), fevs)
      | (.ok pb, fevs) =>
        ((fetchBookmarkData W (strTrim url) pb.2).1,
          fevs ++ (fetchBookmarkData W (strTrim url) pb.2).2) := by
    rw [fetchOembedDataFromUrl_eq W cfg providers url uo (some "bookmark") hparse,
      resolveAfterParse_bookmark W cfg providers uo (strTrim url) hprov]
    cases hft : fetchPageHtml W cfg (strTrim url) with
    | mk res fevs =>
      cases res with
      | error e => rfl
      | ok pb =>
        cases hbr : fetchBookmarkData W (strTrim url) pb.2 with
        | mk bres bevs =>
          cases bres with
          | ok r => dsimp only; rw [hbr]
          | error e =>
            obtain ⟨m, rfl⟩ := fetchBookmarkData_error_validation W (strTrim url) pb.2 e bevs hbr
            dsimp only; rw [hbr]; rfl
  refine ⟨hmain, ?_⟩
  intro e he
  rw [hmain] at he
  rcases hft : fetchPageHtml W cfg (strTrim url) with ⟨res, fevs⟩
  have hfevs : fevs = [] ∨ fevs = [.net (strTrim url)] := by
    have h2 := externalRequest_trace cfg W.fetchHtml (strTrim url)
    have : externalRequest cfg W.fetchHtml (strTrim url) = (res, fevs) := hft
    rw [this] at h2
    simpa using h2
  rw [hft] at he
  have hmem : e ∈ fevs ∨ e = Ev.bookmarkCall (strTrim url) := by
    cases res with
    | error e₁ => exact Or.inl he
    | ok pb =>
      simp only [fetchBookmarkData_trace] at he
      rcases List.mem_append.mp he with h | h
      · exact Or.inl h
      · exact Or.inr (by simpa using h)
  rcases hmem with h | h
  · rcases hfevs with rfl | rfl
    · cases h
    · have : e = Ev.net (strTrim url) := by simpa using h
      subst this
      exact ⟨fun s hs => Ev.noConfusion hs, fun s hs => Ev.noConfusion hs⟩
  · subst h
    exact ⟨fun s hs => Ev.noConfusion hs, fun s hs => Ev.noConfusion hs⟩

/-- Witness for C4: a concrete bookmark-type resolution reduces to fetch
plus bookmark extraction on the requested URL, even though the fetch
redirects. -/
theorem bookmark_request_skips_matcher_and_discovery_witness :
    fetchOembedDataFromUrl
      ⟨fun _ => true, fun _ => none,
        fun _ => some ("http://moved.example/p", "<html>x</html>"), fun _ => none,
        fun _ => .ok none, fun _ u => .ok [("title", .str "T"), ("url", .str u)]⟩
      "https://site.example" [] "http://ok.example/a" (some "bookmark") =
      (.ok (.bookmark ⟨"1.0", "bookmark", "http://ok.example/a",
        [("title", .str "T"), ("url", .str "http://ok.example/a"),
         ("thumbnail", .undefVal), ("icon", .undefVal)]⟩),
       [.net "http://ok.example/a", .bookmarkCall "http://ok.example/a"]) := by
  rw [(bookmark_request_skips_matcher_and_discovery
    ⟨fun _ => true, fun _ => none,
      fun _ => some ("http://moved.example/p", "<html>x</html>"), fun _ => none,
      fun _ => .ok none, fun _ u => .ok [("title", .str "T"), ("url", .str u)]⟩
    "https://site.example" [] "http://ok.example/a" ⟨"http", "ok.example", ""⟩
    (by decide) (fun q hq => absurd hq (List.not_mem_nil q))).1]
  rfl

/-- **C8.** A successful bookmark extraction returns
`{version: "1.0", type: "bookmark", url, metadata}` where
`metadata.thumbnail` is the scraper's `image` field, `metadata.icon` is
the scraper's `logo` field, and `metadata` has neither an `image` nor a
`logo` key. -/
theorem bookmark_payload_shape (W : World) (url html : String) (s : JObj)
    (hscrape : W.scrape html url = .ok s)
    (htitle : (jget (bookmarkMetadata s) "title").truthy = true) :
    fetchBookmarkData W url html =
      (.ok (.bookmark ⟨"1.0", "bookmark", url, bookmarkMetadata s⟩), [.bookmarkCall url]) ∧
    jget (bookmarkMetadata s) "thumbnail" = jget s "image" ∧
    jget (bookmarkMetadata s) "icon" = jget s "logo" ∧
    lookupKey (bookmarkMetadata s) "image" = none ∧
    lookupKey (bookmarkMetadata s) "logo" = none := by
  refine ⟨?_, bookmarkMetadata_fields s⟩
  unfold fetchBookmarkData
  rw [hscrape]
  dsimp only
  rw [htitle]
  rfl

/-- Witness for C8: scraping `{title, image, logo}` yields the bookmark
payload with the `image → thumbnail`, `logo → icon` renames applied. -/
theorem bookmark_payload_shape_witness :
    fetchBookmarkData
      ⟨fun _ => false, fun _ => none, fun _ => none, fun _ => none, fun _ => .ok none,
        fun _ _ => .ok [("title", .str "Example"), ("image", .str "http://x/img.png"),
          ("logo", .str "http://x/f.ico")]⟩
      "http://x/page" "<html>h</html>" =
      (.ok (.bookmark ⟨"1.0", "bookmark", "http://x/page",
        [("title", JVal.str "Example"), ("thumbnail", JVal.str "http://x/img.png"),
         ("icon", JVal.str "http://x/f.ico")]⟩),
       [.bookmarkCall "http://x/page"]) :=
  (bookmark_payload_shape _ "http://x/page" "<html>h</html>"
    [("title", .str "Example"), ("image", .str "http://x/img.png"),
     ("logo", .str "http://x/f.ico")]
    rfl (by decide)).1

/-- **C6.** A scrape with no truthy title makes `fetchBookmarkData` raise
the insufficient-metadata `ValidationError` with the requested URL as
context; the orchestrator's catch-all passes any `ValidationError` through
verbatim and normalises every other exception to the unknown-provider
outcome; end-to-end, a bookmark resolution over a titleless page surfaces
exactly the insufficient-metadata error. -/
theorem insufficient_metadata_propagation (W : World) (cfg : String) :
    (∀ url html s, W.scrape html url = .ok s →
      (jget (bookmarkMetadata s) "title").truthy = false →
      fetchBookmarkData W url html =
        (.error (.validation insufficientMetadataMsg url), [.bookmarkCall url])) ∧
    (∀ u m c, catchNorm u (.validation m c) = .validation m c) ∧
    (∀ u e, (∀ m c, e ≠ .validation m c) → catchNorm u e = unknownProviderErr u) ∧
    (∀ providers url uo html s,
      parseURL url = some uo →
      (∀ q ∈ providers, q.canSupportRequest uo = false ∨ q.getOEmbedData uo = .ok none) →
      isIpOrLocalhost cfg (strTrim url) = false →
      W.fetchHtml (strTrim url) = some (strTrim url, html) →
      W.scrape html (strTrim url) = .ok s →
      (jget (bookmarkMetadata s) "title").truthy = false →
      fetchOembedDataFromUrl W cfg providers url (some "bookmark") =
        (.error (.validation insufficientMetadataMsg (strTrim url)),
         [.net (strTrim url), .bookmarkCall (strTrim url)])) := by
  have hbook : ∀ url html s, W.scrape html url = .ok s →
      (jget (bookmarkMetadata s) "title").truthy = false →
      fetchBookmarkData W url html =
        (.error (.validation insufficientMetadataMsg url), [.bookmarkCall url]) := by
    intro url html s hscrape htitle
    unfold fetchBookmarkData
    rw [hscrape]
    dsimp only
    rw [htitle]
    rfl
  refine ⟨hbook, fun u m c => rfl, ?_, ?_⟩
  · intro u e he
    cases e with
    | validation m c => exact absurd rfl (he m c)
    | internal m => rfl
    | generic => rfl
  · intro providers url uo html s hparse hprov hguard hfetch hscrape htitle
    rw [fetchOembedDataFromUrl_eq W cfg providers url uo (some "bookmark") hparse,
      resolveAfterParse_bookmark W cfg providers uo (strTrim url) hprov]
    have hpage : fetchPageHtml W cfg (strTrim url) =
        (.ok (strTrim url, html), [.net (strTrim url)]) := by
      simp [fetchPageHtml, externalRequest, hguard, hfetch]
    rw [hpage]
    dsimp only
    rw [hbook (strTrim url) html s hscrape htitle]
    rfl

/-- Witness for C6: a page scraping to `{description}` only (no title)
surfaces the insufficient-metadata ValidationError with the requested URL
as context, after one guarded fetch. -/
theorem insufficient_metadata_propagation_witness :
    fetchOembedDataFromUrl
      ⟨fun _ => false, fun _ => none, fun _ => some ("http://ok.example/a", "<html>n</html>"),
        fun _ => none, fun _ => .ok none, fun _ _ => .ok [("description", .str "D")]⟩
      "https://site.example" [] "http://ok.example/a" (some "bookmark") =
      (.error (.validation insufficientMetadataMsg "http://ok.example/a"),
       [.net "http://ok.example/a", .bookmarkCall "http://ok.example/a"]) :=
  (insufficient_metadata_propagation
      ⟨fun _ => false, fun _ => none, fun _ => some ("http://ok.example/a", "<html>n</html>"),
        fun _ => none, fun _ => .ok none, fun _ _ => .ok [("description", .str "D")]⟩
      "https://site.example").2.2.2 [] "http://ok.example/a" ⟨"http", "ok.example", ""⟩
    "<html>n</html>" [("description", .str "D")] (by decide)
    (fun q hq => absurd hq (List.not_mem_nil q)) (by decide) rfl rfl (by decide)

/-- **C5.** A discovered oEmbed JSON response of type `photo` with a
truthy version and no `url` field makes the discoverer return no payload
(not an error); the same holds for a `video`/`rich` response missing any
of `html`, `width`, `height`; and whenever discovery yields no payload and
no explicit card type was requested, the orchestrator falls back to
bookmark extraction on the fetched HTML. -/
theorem incomplete_oembed_falls_back_to_bookmark (W : World) (cfg : String)
    (url html L : String) :
    (∀ jurl body, W.oembedLinkOf html = .ok (some L) → L ≠ "" →
      matchesWpJson L = false → isIpOrLocalhost cfg L = false →
      W.fetchJson L = some (jurl, body) → isIpOrLocalhost cfg jurl = false →
      jget body "type" = .str "photo" → (jget body "version").truthy = true →
      lookupKey body "url" = none →
      fetchOembedData W cfg url html none = (.ok none, [.net L])) ∧
    (∀ jurl body, W.oembedLinkOf html = .ok (some L) → L ≠ "" →
      matchesWpJson L = false → isIpOrLocalhost cfg L = false →
      W.fetchJson L = some (jurl, body) → isIpOrLocalhost cfg jurl = false →
      (jget body "type" = .str "video" ∨ jget body "type" = .str "rich") →
      (jget body "version").truthy = true →
      (lookupKey body "html" = none ∨ lookupKey body "width" = none ∨
        lookupKey body "height" = none) →
      fetchOembedData W cfg url html none = (.ok none, [.net L])) ∧
    (∀ providers uo oevs, fetchOembedData W cfg url html none = (.ok none, oevs) →
      parseURL url = some uo → strTrim url = url →
      (∀ q ∈ providers, q.canSupportRequest uo = false ∨ q.getOEmbedData uo = .ok none) →
      (findUrlWithProvider W.hasProvider url).2 = false →
      isIpOrLocalhost cfg url = false →
      W.fetchHtml url = some (url, html) →
      fetchOembedDataFromUrl W cfg providers url none =
        ((fetchBookmarkData W url html).1,
          [.matcher url, .net url, .discover url] ++ oevs ++ (fetchBookmarkData W url html).2)) := by
  have hpick : ∀ (body : JObj) (k : String), k ∈ knownFields →
      lookupKey (pick body knownFields) k = lookupKey body k := by
    intro body k hk
    rw [lookupKey_pick]
    exact if_pos hk
  refine ⟨?_, ?_, ?_⟩
  · intro jurl body hlink hL hwp hguardL hfetchJ hguardJ htype hversion hurl
    have hne : (L == "") = false := by simpa using hL
    have hjson : fetchPageJson W cfg L = (.ok (jurl, body), [.net L]) := by
      simp [fetchPageJson, externalRequest, hguardL, hfetchJ, hguardJ]
    have hptype : jget (pick body knownFields) "type" = JVal.str "photo" := by
      unfold jget
      rw [hpick body "type" (by decide)]
      exact htype
    have hpurl : (jget (pick body knownFields) "url").truthy = false := by
      unfold jget
      rw [hpick body "url" (by decide), hurl]
      rfl
    unfold fetchOembedData
    rw [hlink]
    simp only [Option.getD_some, hne, Bool.false_eq_true, if_false, Option.isNone_none,
      hwp, Bool.true_and, hjson, htype, hversion, hptype, hpurl]
    simp [JVal.truthy]
  · intro jurl body hlink hL hwp hguardL hfetchJ hguardJ htype hversion hmiss
    have hne : (L == "") = false := by simpa using hL
    have hjson : fetchPageJson W cfg L = (.ok (jurl, body), [.net L]) := by
      simp [fetchPageJson, externalRequest, hguardL, hfetchJ, hguardJ]
    have hptype : jget (pick body knownFields) "type" = jget body "type" := by
      unfold jget
      rw [hpick body "type" (by decide)]
    have hone : (!(jget (pick body knownFields) "html").truthy
        || !(jget (pick body knownFields) "width").truthy
        || !(jget (pick body knownFields) "height").truthy) = true := by
      rcases hmiss with h | h | h
      · have : (jget (pick body knownFields) "html").truthy = false := by
          unfold jget; rw [hpick body "html" (by decide), h]; rfl
        simp [this]
      · have : (jget (pick body knownFields) "width").truthy = false := by
          unfold jget; rw [hpick body "width" (by decide), h]; rfl
        simp [this]
      · have : (jget (pick body knownFields) "height").truthy = false := by
          unfold jget; rw [hpick body "height" (by decide), h]; rfl
        simp [this]
    unfold fetchOembedData
    rw [hlink]
    rcases htype with h | h <;>
      simp only [Option.getD_some, hne, Bool.false_eq_true, if_false, Option.isNone_none,
        hwp, Bool.true_and, hjson, hone, hptype, h, hversion] <;>
      simp [JVal.truthy]
  · intro providers uo oevs hdisc hparse htrim hprov hmiss hguard hfetch
    rw [fetchOembedDataFromUrl_eq W cfg providers url uo none hparse, htrim,
      resolveAfterParse_discovery W cfg providers uo url html hprov hmiss hguard hfetch,
      hdisc]
    cases hbr : fetchBookmarkData W url html with
    | mk bres bevs =>
      cases bres with
      | ok r => dsimp only
      | error e =>
        obtain ⟨m, rfl⟩ := fetchBookmarkData_error_validation W url html e bevs hbr
        rfl

/-- Witness for C5: the `photo`-without-`url` endpoint yields no payload
and the resolution ends in bookmark extraction of the fetched page. -/
theorem incomplete_oembed_falls_back_to_bookmark_witness :
    fetchOembedDataFromUrl demoPhotoWorld "https://site.example" [] "http://ok.example/page"
      none =
      (.ok (.bookmark ⟨"1.0", "bookmark", "http://ok.example/page",
        [("title", JVal.str "T"), ("thumbnail", JVal.undefVal), ("icon", JVal.undefVal)]⟩),
       [.matcher "http://ok.example/page", .net "http://ok.example/page",
        .discover "http://ok.example/page", .net "http://pub.example/oembed.json",
        .bookmarkCall "http://ok.example/page"]) := by
  have h1 := (incomplete_oembed_falls_back_to_bookmark demoPhotoWorld "https://site.example"
    "http://ok.example/page" "<html>o</html>" "http://pub.example/oembed.json").1
    "http://pub.example/oembed.json" [("type", .str "photo"), ("version", .str "1.0")]
    rfl (by decide) (by decide) (by decide) rfl (by decide) rfl (by decide) rfl
  have h3 := (incomplete_oembed_falls_back_to_bookmark demoPhotoWorld "https://site.example"
    "http://ok.example/page" "<html>o</html>" "http://pub.example/oembed.json").2.2
    [] ⟨"http", "ok.example", ""⟩ [.net "http://pub.example/oembed.json"] h1
    (by decide) (by decide) (fun q hq => absurd hq (List.not_mem_nil q))
    (by decide) (by decide) rfl
  rw [h3]
  rfl

/-- **C7 (counterexample).** The claim says every `ValidationError`
surfaced to the caller carries the originally requested URL as context,
"including ValidationErrors produced when the SSRF guard rejects an
intermediate fetch such as the discovered oEmbed endpoint".  Here the
guard rejects the discovered endpoint `http://10.0.0.1/oembed`, the
catch-all rethrows the `ValidationError` verbatim, and its context is the
intermediate URL, not the requested `http://ok.example/page` (which is
already trimmed). -/
theorem validation_context_counterexample :
    (fetchOembedDataFromUrl ssrfOembedWorld "https://site.example" []
        "http://ok.example/page" none).1 =
      .error (.validation unknownProviderMsg "http://10.0.0.1/oembed") ∧
    "http://10.0.0.1/oembed" ≠ "http://ok.example/page" ∧
    strTrim "http://ok.example/page" = "http://ok.example/page" :=
  ⟨by rfl, by decide, by decide⟩

/-- **C7 (amended).** An SSRF-guard rejection is a `ValidationError` with
the same unknown-provider message as the ordinary unknown-provider
outcome; its context is the URL passed to that particular guarded fetch —
the trimmed requested URL when the top-level page fetch is rejected, but
the intermediate URL when an intermediate fetch (the discovered oEmbed
endpoint) is rejected, the catch-all rethrowing that `ValidationError`
verbatim. -/
theorem ssrf_rejection_error_shape (W : World) (cfg : String) :
    (∀ (β : Type) (raw : String → Option (String × β)) (t : String),
      isIpOrLocalhost cfg t = true →
      (externalRequest cfg raw t).1 = .error (.validation unknownProviderMsg t)) ∧
    (∀ providers url uo,
      parseURL url = some uo →
      (∀ q ∈ providers, q.canSupportRequest uo = false ∨ q.getOEmbedData uo = .ok none) →
      isIpOrLocalhost cfg (strTrim url) = true →
      fetchOembedDataFromUrl W cfg providers url (some "bookmark") =
        (.error (.validation unknownProviderMsg (strTrim url)), [])) ∧
    (∀ providers url uo html L,
      parseURL url = some uo → strTrim url = url →
      (∀ q ∈ providers, q.canSupportRequest uo = false ∨ q.getOEmbedData uo = .ok none) →
      (findUrlWithProvider W.hasProvider url).2 = false →
      isIpOrLocalhost cfg url = false →
      W.fetchHtml url = some (url, html) →
      W.oembedLinkOf html = .ok (some L) → L ≠ "" → matchesWpJson L = false →
      isIpOrLocalhost cfg L = true →
      fetchOembedDataFromUrl W cfg providers url none =
        (.error (.validation unknownProviderMsg L),
         [.matcher url, .net url, .discover url])) := by
  refine ⟨?_, ?_, ?_⟩
  · intro β raw t h
    simp [externalRequest, h, unknownProviderErr]
  · intro providers url uo hparse hprov hguard
    rw [fetchOembedDataFromUrl_eq W cfg providers url uo (some "bookmark") hparse,
      resolveAfterParse_bookmark W cfg providers uo (strTrim url) hprov]
    have hfetch : fetchPageHtml W cfg (strTrim url) =
        (.error (unknownProviderErr (strTrim url)), []) := by
      simp [fetchPageHtml, externalRequest, hguard]
    rw [hfetch]
    rfl
  · intro providers url uo html L hparse htrim hprov hmiss hguard hfetch hlink hL hwp hguardL
    have hne : (L == "") = false := by simpa using hL
    have hdisc : fetchOembedData W cfg url html none =
        (.error (unknownProviderErr L), []) := by
      unfold fetchOembedData
      rw [hlink]
      have hjson : fetchPageJson W cfg L = (.error (unknownProviderErr L), []) := by
        simp [fetchPageJson, externalRequest, hguardL]
      simp only [Option.getD_some, hne, Bool.false_eq_true, if_false, Option.isNone_none,
        hwp, Bool.true_and, hjson]
    rw [fetchOembedDataFromUrl_eq W cfg providers url uo none hparse, htrim,
      resolveAfterParse_discovery W cfg providers uo url html hprov hmiss hguard hfetch,
      hdisc]
    rfl

/-- Witness for the amended C7: in the concrete world whose discovered
endpoint is `http://10.0.0.1/oembed`, the surfaced error is the
unknown-provider ValidationError with the intermediate URL as context. -/
theorem ssrf_rejection_error_shape_witness :
    fetchOembedDataFromUrl ssrfOembedWorld "https://site.example" []
      "http://ok.example/page" none =
      (.error (.validation unknownProviderMsg "http://10.0.0.1/oembed"),
       [.matcher "http://ok.example/page", .net "http://ok.example/page",
        .discover "http://ok.example/page"]) :=
  (ssrf_rejection_error_shape ssrfOembedWorld "https://site.example").2.2
    [] "http://ok.example/page" ⟨"http", "ok.example", ""⟩ "<html>s</html>"
    "http://10.0.0.1/oembed" (by decide) (by decide)
    (fun q hq => absurd hq (List.not_mem_nil q)) (by decide) (by decide) rfl rfl
    (by decide) (by decide) (by decide)


end GhostOembed
